import Mathlib

/-!
# ItsAGame: event dispatch, the actor and the frame loop

A shallow embedding of `src/ItsAGame/main.cpp`.

* `F32` is the C++ `float` (IEEE 754 binary32, round to nearest, ties to even),
  kept as its 32-bit pattern.
* `World` is the program state the event code works on: the `EventManager`
  singleton and the heap of `shared_ptr`-owned listener objects.  A
  `std::weak_ptr<Listener>` is the identity of the object it watches; it is
  expired when the heap has no object under that identity.
* `publishEvent` returns, next to the new state, the list of virtual calls
  `listener->onUpdate(...)` it made, in the order it made them.
* `main` is a function of the answers of GLFW and GLEW (`Env`) and returns the
  exit code, the final state and the sequence of observable steps.
-/

namespace ItsAGame

/-! ## `float` -/

/-- The C++ `float`: an IEEE 754 binary32 value, held as its bit pattern
(bit 31 sign, bits 30..23 biased exponent, bits 22..0 fraction). -/
structure F32 where
  bits : Fin 4294967296
  deriving DecidableEq, Repr

namespace F32

/-- The float with bit pattern `n` (taken modulo `2^32`). -/
def ofBits (n : Nat) : F32 := ⟨⟨n % 4294967296, Nat.mod_lt _ (by decide)⟩⟩

/-- Sign bit. -/
def sign (x : F32) : Bool := decide (2147483648 ≤ x.bits.val)

/-- Biased exponent field. -/
def expField (x : F32) : Nat := x.bits.val / 8388608 % 256

/-- Fraction field. -/
def fracField (x : F32) : Nat := x.bits.val % 8388608

def isNaN (x : F32) : Bool := x.expField == 255 && x.fracField != 0

def isInf (x : F32) : Bool := x.expField == 255 && x.fracField == 0

/-- Integer significand of a finite float: its value is
`(-1)^sign * mant * 2^(bexp - 150)`. -/
def mant (x : F32) : Nat := if x.expField = 0 then x.fracField else 8388608 + x.fracField

/-- Exponent of a finite float, biased by 150 (subnormals share the exponent
of the smallest normals). -/
def bexp (x : F32) : Nat := if x.expField = 0 then 1 else x.expField

/-- Signed integer significand. -/
def sval (x : F32) : Int := if x.sign then -(x.mant : Int) else (x.mant : Int)

def signBit (s : Bool) : Nat := if s then 2147483648 else 0

def inf (s : Bool) : F32 := ofBits (signBit s + 2139095040)

def zero (s : Bool) : F32 := ofBits (signBit s)

/-- Index of the highest set bit of `n` (0 for `n < 2`), by halving at most
`fuel` times. -/
def topBit : Nat → Nat → Nat
  | 0, _ => 0
  | fuel + 1, n => if n < 2 then 0 else topBit fuel (n / 2) + 1

/-- The float nearest to `(-1)^s * M * 2^(b - 150)`, ties to even, for
`0 < M` and `1 ≤ b`; infinity on overflow.  A significand of more than 24
bits is cut to 24 bits and rounded; a shorter one is exact and is shifted up
as far as the exponent allows. -/
def round (s : Bool) (M b : Nat) : F32 :=
  let L := topBit M M
  if 24 ≤ L then
    let k := L - 23
    let q := M / 2 ^ k
    let r := M % 2 ^ k
    let h := 2 ^ (k - 1)
    let q1 := if h < r ∨ (r = h ∧ q % 2 = 1) then q + 1 else q
    let e := b + k
    if 255 ≤ (if q1 = 16777216 then e + 1 else e) then inf s
    else ofBits (signBit s + (e - 1) * 8388608 + q1)
  else
    let j := min (23 - L) (b - 1)
    let e := b - j
    if 255 ≤ e then inf s else ofBits (signBit s + (e - 1) * 8388608 + M * 2 ^ j)

/-- Conversion `int` to `float` (as in `rotation_angle += 10`, and for the
literals `1.0` and `0.0`, which are integers). -/
def ofInt (n : Int) : F32 :=
  if n = 0 then zero false else round (decide (n < 0)) n.natAbs 150

/-- A NaN operand is returned with its quiet bit set (the SSE rule). -/
def quiet (x : F32) : F32 := ofBits (x.bits.val ||| 4194304)

/-- Float addition: a NaN operand propagates (the first one when both are NaN, a
case C++ leaves to the compiler and that an addend 10 never meets), infinities
absorb (opposite infinities give the default NaN `0xFFC00000`), and finite
operands are added exactly over their common exponent and rounded once. -/
def add (x y : F32) : F32 :=
  if x.isNaN then quiet x
  else if y.isNaN then quiet y
  else if x.isInf then
    if y.isInf && (x.sign != y.sign) then ofBits 4290772992 else x
  else if y.isInf then y
  else
    let b := min x.bexp y.bexp
    let S : Int := x.sval * 2 ^ (x.bexp - b) + y.sval * 2 ^ (y.bexp - b)
    if S = 0 then zero (x.sign && y.sign)
    else round (decide (S < 0)) S.natAbs b

/-- Sign flip. -/
def neg (x : F32) : F32 := ofBits (x.bits.val ^^^ 2147483648)

/-- Float subtraction `x - y`: addition of the negated `y`; a NaN `y` keeps its sign. -/
def sub (x y : F32) : F32 := if y.isNaN then add x y else add x (neg y)

instance : Add F32 := ⟨add⟩

instance : Sub F32 := ⟨sub⟩

/-- The normal float with sign `s`, exponent field `127 + L` and 24-bit significand `mm`. -/
def normal (s : Bool) (L mm : Nat) : F32 := ofBits (signBit s + (126 + L) * 8388608 + mm)

end F32

/-! ## Data model -/

/-- The enumeration `EVENT_TYPE`: one member. -/
inductive EVENT_TYPE where
  | KEY_PRESS
  deriving DecidableEq, Repr

structure Position where
  x_position : F32
  y_position : F32
  rotation_angle : F32
  deriving DecidableEq, Repr

/-- Three `GLubyte` channels. -/
structure Color where
  red : Fin 256
  green : Fin 256
  blue : Fin 256
  deriving DecidableEq, Repr

/-- The fields of `class Actor`. -/
structure Actor where
  m_id : Int
  m_position : Position
  m_color : Color
  m_components : List (Int × Int)
  deriving DecidableEq, Repr

/-- The constructor `Actor(_id, _position, _color)`; `m_components` starts empty. -/
def Actor.new (_id : Int) (_position : Position) (_color : Color) : Actor :=
  ⟨_id, _position, _color, []⟩

/-- The method `Actor::onUpdate(const EVENT_TYPE, const std::string)`. -/
def Actor.onUpdate (self : Actor) (_event_type : EVENT_TYPE) (_message : String) : Actor :=
  if EVENT_TYPE.KEY_PRESS = _event_type ∧ "UP" = _message then
    { self with m_position :=
        { self.m_position with
          rotation_angle := self.m_position.rotation_angle + F32.ofInt 10 } }
  else if EVENT_TYPE.KEY_PRESS = _event_type ∧ "DOWN" = _message then
    { self with m_position :=
        { self.m_position with
          rotation_angle := self.m_position.rotation_angle - F32.ofInt 10 } }
  else self

/-- The method `Actor::onUpdate()` without arguments (the per-frame update): its body is
commented out. -/
def Actor.onUpdate0 (self : Actor) : Actor := self

def Actor.getId (self : Actor) : Int := self.m_id

def Actor.getPosition (self : Actor) : Position := self.m_position

def Actor.getColor (self : Actor) : Color := self.m_color

/-! ## The event manager -/

/-- Identity of a listener object as seen through `std::weak_ptr<Listener>`. -/
abbrev WeakPtr := Nat

/-- The class `EventManager`: `m_listeners` is the `std::map` from event type to the
`std::list` of weak pointers; `none` is an absent key. -/
structure EventManager where
  m_listeners : EVENT_TYPE → Option (List WeakPtr)

/-- The instance `getInstance()` before its first use: an empty map. -/
def EventManager.empty : EventManager := ⟨fun _ => none⟩

/-- The method `EventManager::registerListener`. -/
def EventManager.registerListener (self : EventManager) (_event_type : EVENT_TYPE)
    (_listener : WeakPtr) : EventManager :=
  match self.m_listeners _event_type with
  | some found =>
      ⟨Function.update self.m_listeners _event_type (some (found ++ [_listener]))⟩
  | none =>
      ⟨Function.update self.m_listeners _event_type (some ([] ++ [_listener]))⟩

/-- Program state seen by the event code: the `EventManager` singleton and the
listener objects that are still owned by some `shared_ptr` (`none`: released). -/
structure World (Obj : Type) where
  eventManager : EventManager
  heap : WeakPtr → Option Obj

/-- The test `listener_wp.expired()`. -/
def World.expired {Obj : Type} (w : World Obj) (wp : WeakPtr) : Bool := (w.heap wp).isNone

/-- The call `EventManager::getInstance().registerListener(...)` on the program state. -/
def World.registerListener {Obj : Type} (w : World Obj) (_event_type : EVENT_TYPE)
    (_listener : WeakPtr) : World Obj :=
  { w with eventManager := w.eventManager.registerListener _event_type _listener }

/-- One virtual call `listener->onUpdate(_event_type, _message)`. -/
structure Invocation where
  target : WeakPtr
  event_type : EVENT_TYPE
  message : String
  deriving DecidableEq, Repr

/-- Effect of the virtual call `onUpdate` on the object behind a weak pointer,
as a function of the whole program state (a reaction may do anything,
`registerListener` included). -/
abbrev Dispatch (Obj : Type) := WeakPtr → EVENT_TYPE → String → World Obj → World Obj

/-- The range-for loop of `publishEvent` over the copied list. -/
def publishLoop {Obj : Type} (onUpdate : Dispatch Obj) (_event_type : EVENT_TYPE)
    (_message : String) : List WeakPtr → World Obj → World Obj × List Invocation
  | [], w => (w, [])
  | listener_wp :: rest, w =>
      if w.expired listener_wp then publishLoop onUpdate _event_type _message rest w
      else
        let r := publishLoop onUpdate _event_type _message rest
          (onUpdate listener_wp _event_type _message w)
        (r.1, ⟨listener_wp, _event_type, _message⟩ :: r.2)

/-- The method `EventManager::publishEvent`: the list found under the key is copied
(`listeners = result->second`) and the loop runs over the copy. -/
def publishEvent {Obj : Type} (onUpdate : Dispatch Obj) (_event_type : EVENT_TYPE)
    (_message : String) (w : World Obj) : World Obj × List Invocation :=
  match w.eventManager.m_listeners _event_type with
  | some listeners => publishLoop onUpdate _event_type _message listeners w
  | none => (w, [])

/-- Virtual dispatch when every listener object is an `Actor`: the reaction
replaces the target by `Actor::onUpdate` of it. -/
def Listener.onUpdate : Dispatch Actor := fun listener _event_type _message w =>
  match w.heap listener with
  | some a =>
      { w with heap := Function.update w.heap listener (some (a.onUpdate _event_type _message)) }
  | none => w

/-- Registrations made one after the other. -/
def registerAll {Obj : Type} (regs : List (EVENT_TYPE × WeakPtr)) (w : World Obj) : World Obj :=
  regs.foldl (fun acc r => acc.registerListener r.1 r.2) w

/-- Publications of `_event_type` made one after the other, one per message. -/
def publishAll {Obj : Type} (onUpdate : Dispatch Obj) (_event_type : EVENT_TYPE) :
    List String → World Obj → World Obj
  | [], w => w
  | m :: ms, w => publishAll onUpdate _event_type ms (publishEvent onUpdate _event_type m w).1

/-! ## Input -/

/-- Constants of the GLFW and GLEW headers used by the program. -/
structure Lib where
  GLFW_KEY_UP : Int
  GLFW_KEY_DOWN : Int
  GLFW_KEY_LEFT : Int
  GLFW_KEY_RIGHT : Int
  GLFW_PRESS : Int
  GLEW_OK : Int

/-- The values in `GLFW/glfw3.h` and `GL/glew.h`. -/
def Lib.headers : Lib :=
  { GLFW_KEY_UP := 265, GLFW_KEY_DOWN := 264, GLFW_KEY_LEFT := 263, GLFW_KEY_RIGHT := 262,
    GLFW_PRESS := 1, GLEW_OK := 0 }

/-- The function `key_callback(window, key, scancode, action, mods)`. -/
def key_callback {Obj : Type} (lib : Lib) (onUpdate : Dispatch Obj)
    (key _scancode action _mods : Int) (w : World Obj) : World Obj × List Invocation :=
  if key = lib.GLFW_KEY_UP ∧ action = lib.GLFW_PRESS then
    publishEvent onUpdate EVENT_TYPE.KEY_PRESS "UP" w
  else if key = lib.GLFW_KEY_DOWN ∧ action = lib.GLFW_PRESS then
    publishEvent onUpdate EVENT_TYPE.KEY_PRESS "DOWN" w
  else if key = lib.GLFW_KEY_LEFT ∧ action = lib.GLFW_PRESS then
    publishEvent onUpdate EVENT_TYPE.KEY_PRESS "LEFT" w
  else if key = lib.GLFW_KEY_RIGHT ∧ action = lib.GLFW_PRESS then
    publishEvent onUpdate EVENT_TYPE.KEY_PRESS "RIGHT" w
  else (w, [])

/-! ## `main` -/

/-- One key transition handed to `key_callback` by `glfwPollEvents`. -/
structure KeyEvent where
  key : Int
  scancode : Int
  action : Int
  mods : Int
  deriving DecidableEq, Repr

/-- Answers of the libraries to the calls of `main`: the return values of
`glfwInit`, `glfwCreateWindow` (`none`: null) and `glewInit`, the answer of
`glfwWindowShouldClose` to its `i`-th call, and the key transitions delivered
by the `i`-th call of `glfwPollEvents`. -/
structure Env where
  glfwInit : Int
  glfwCreateWindow : Option Nat
  glewInit : Int
  glfwWindowShouldClose : Nat → Int
  glfwPollEvents : Nat → List KeyEvent

/-- Observable steps of `main`.  Calls that only set GL or GLFW state
(`glfwSetKeyCallback`, `glEnableClientState`, ...) are not recorded; `clear`
stands for `glClearColor` and `glClear`, `projection` for `glMatrixMode`,
`glLoadIdentity` and `glOrtho`. -/
inductive Obs where
  | cout (text : String)
  | glfwTerminate
  | glfwDestroyWindow
  | clear
  | projection
  | actorUpdate
  | drawTriangle (_position : Position) (_color : Color)
  | glfwSwapBuffers
  | glfwPollEvents
  | onUpdate (call : Invocation)
  deriving DecidableEq, Repr

/-- What `main` returns: the exit code, with the program state when `return`
is reached and the steps taken until then. -/
structure Exit where
  code : Int
  world : World Actor
  trace : List Obs

/-- Program state at the start of `main`: no listener object, empty event manager. -/
def World.start : World Actor := ⟨EventManager.empty, fun _ => none⟩

/-- Identity of the object made by `new Actor(...)` in `main`. -/
def triangleActor : WeakPtr := 0

/-- The object `Actor(1, Position(1.0, 1.0, 0.0), Color(1, 1, 1))` made in `main`. -/
def mainActor : Actor := Actor.new 1 ⟨F32.ofInt 1, F32.ofInt 1, F32.ofInt 0⟩ ⟨1, 1, 1⟩

/-- The call `triangleActor->onUpdate()`. -/
def actorUpdate (w : World Actor) : World Actor :=
  match w.heap triangleActor with
  | some a => { w with heap := Function.update w.heap triangleActor (some a.onUpdate0) }
  | none => w

/-- The call `triangleActor->onRender()`: one `drawTriangle` with the actor's position and
color. -/
def onRender (w : World Actor) : List Obs :=
  match w.heap triangleActor with
  | some a => [Obs.drawTriangle a.m_position a.m_color]
  | none => []

/-- The call `glfwPollEvents()`: `key_callback` runs for each delivered key transition. -/
def pollEvents (lib : Lib) : List KeyEvent → World Actor → World Actor × List Invocation
  | [], w => (w, [])
  | e :: es, w =>
      let r := key_callback lib Listener.onUpdate e.key e.scancode e.action e.mods w
      let r2 := pollEvents lib es r.1
      (r2.1, r.2 ++ r2.2)

/-- Body of the `while` loop of `main`, iteration `i` (counted from 0). -/
def frame (lib : Lib) (env : Env) (i : Nat) (w : World Actor) : World Actor × List Obs :=
  let w1 := actorUpdate w
  let r := pollEvents lib (env.glfwPollEvents i) w1
  (r.1, [Obs.clear, Obs.projection, Obs.actorUpdate] ++ onRender w1 ++
        [Obs.glfwSwapBuffers, Obs.glfwPollEvents] ++ r.2.map Obs.onUpdate)

/-- The `while (!glfwWindowShouldClose(window))` loop from its `i`-th check on; `none` when
`fuel` checks were not enough to see the loop end. -/
def frameLoop (lib : Lib) (env : Env) : Nat → Nat → World Actor × List Obs →
    Option (World Actor × List Obs)
  | 0, _, _ => none
  | fuel + 1, i, st =>
      if env.glfwWindowShouldClose i ≠ 0 then some st
      else
        let r := frame lib env i st.1
        frameLoop lib env fuel (i + 1) (r.1, st.2 ++ r.2)

/-- The function `main`. -/
def main (lib : Lib) (env : Env) (fuel : Nat) : Option Exit :=
  if env.glfwInit = 0 then
    some ⟨-1, World.start, [Obs.cout "glfw failed\n"]⟩
  else
    match env.glfwCreateWindow with
    | none => some ⟨-1, World.start, [Obs.glfwTerminate, Obs.cout "window failed\n"]⟩
    | some _ =>
        if env.glewInit ≠ lib.GLEW_OK then
          some ⟨-1, World.start, [Obs.cout "\nglew failed\n"]⟩
        else
          let w0 : World Actor :=
            { World.start with
              heap := Function.update World.start.heap triangleActor (some mainActor) }
          let w1 := w0.registerListener EVENT_TYPE.KEY_PRESS triangleActor
          match frameLoop lib env fuel 0 (w1, []) with
          | none => none
          | some st => some ⟨0, st.1, st.2 ++ [Obs.glfwDestroyWindow, Obs.glfwTerminate]⟩

/-- Exactly `n` iterations of the loop body, from iteration `i` on. -/
def runFrames (lib : Lib) (env : Env) : Nat → Nat → World Actor × List Obs →
    World Actor × List Obs
  | 0, _, st => st
  | n + 1, i, st =>
      let r := frame lib env i st.1
      runFrames lib env n (i + 1) (r.1, st.2 ++ r.2)

/-- Rotation step named by the specification: `+10` for "UP", `-10` for "DOWN",
nothing for any other payload. -/
def rotationStep (θ : F32) (payload : String) : F32 :=
  if payload = "UP" then θ + F32.ofInt 10
  else if payload = "DOWN" then θ - F32.ofInt 10
  else θ

/-- The references registered for an event type (`[]` when the key is absent). -/
def World.registered {Obj : Type} (w : World Obj) (_event_type : EVENT_TYPE) : List WeakPtr :=
  (w.eventManager.m_listeners _event_type).getD []

/-- The state of `main` just before its loop, with `a` as the actor. -/
def World.withActor (a : Actor) : World Actor :=
  ({ World.start with heap := Function.update World.start.heap triangleActor (some a) } :
    World Actor).registerListener EVENT_TYPE.KEY_PRESS triangleActor

/-- A dispatch whose reactions neither release nor revive any listener object. -/
def KeepsLiveness {Obj : Type} (onUpdate : Dispatch Obj) : Prop :=
  ∀ p k m w q, (onUpdate p k m w).expired q = w.expired q

/-- A dispatch whose reactions leave the event manager as it is. -/
def KeepsRegistry {Obj : Type} (onUpdate : Dispatch Obj) : Prop :=
  ∀ p k m w, (onUpdate p k m w).eventManager = w.eventManager

/-- The invocations of `(k, m)` on the targets `l`, in order. -/
def callsOn (k : EVENT_TYPE) (m : String) (l : List WeakPtr) : List Invocation :=
  l.map (fun p => ⟨p, k, m⟩)

/-- The targets of `l` that are not expired in `w`, in order. -/
def World.live {Obj : Type} (w : World Obj) (l : List WeakPtr) : List WeakPtr :=
  l.filter (fun p => !w.expired p)

/-- A state with the references 0, 1, 0 registered for KEY_PRESS, in this order, where
the target of 1 has been released. -/
def World.withReleased : World Actor :=
  ⟨⟨fun _ => some [0, 1, 0]⟩, Function.update (fun _ => none) 0 (some mainActor)⟩

/-- A run of five frames: the up arrow goes down during the polls 0, 1 and 2, the
down arrow goes down and up again and the left arrow goes down during poll 3, and the
window is asked to close after poll 4. -/
def Env.demo : Env where
  glfwInit := 1
  glfwCreateWindow := some 1
  glewInit := 0
  glfwWindowShouldClose := fun i => if i < 5 then 0 else 1
  glfwPollEvents := fun i =>
    if i < 3 then [⟨265, 0, 1, 0⟩]
    else if i = 3 then [⟨264, 0, 1, 0⟩, ⟨264, 0, 0, 0⟩, ⟨263, 0, 1, 0⟩]
    else []

/-- The steps that belong to an iteration of the frame loop. -/
def Obs.isFrameStep : Obs → Bool
  | Obs.cout _ => false
  | Obs.glfwTerminate => false
  | Obs.glfwDestroyWindow => false
  | _ => true

/-- The `drawTriangle` steps. -/
def Obs.isDraw : Obs → Bool
  | Obs.drawTriangle _ _ => true
  | _ => false

/-- A dispatch in which the reaction of listener `p` is to register listener `q` for the
kind it is called with, and every other listener is an Actor. -/
def registeringDispatch (p q : WeakPtr) : Dispatch Actor := fun listener k m w =>
  if listener = p then w.registerListener k q else Listener.onUpdate listener k m w

/-- A state with the listeners 0 and 2 registered for KEY_PRESS, in this order, and the
Actors 1 and 2 alive; listener 0 is the registering one of `registeringDispatch 0 1`. -/
def World.withRegistrar : World Actor :=
  ⟨⟨fun _ => some [0, 2]⟩,
    Function.update (Function.update (Function.update (fun _ => none) 0 (some mainActor)) 1
      (some mainActor)) 2 (some mainActor)⟩

/-! ## Lemmas on `float` -/

namespace F32

theorem topBit_spec (fuel n : Nat) (hn : 0 < n) (hf : n ≤ fuel) :
    2 ^ topBit fuel n ≤ n ∧ n < 2 ^ (topBit fuel n + 1) := by
  induction fuel generalizing n with
  | zero => omega
  | succ f ih =>
    unfold topBit
    by_cases h2 : n < 2
    · simp only [h2, if_true]; constructor <;> simp <;> omega
    · simp only [h2, if_false]
      have := ih (n / 2) (by omega) (by omega)
      obtain ⟨h1, h3⟩ := this
      constructor
      · rw [pow_succ]; omega
      · rw [pow_succ]; omega

theorem topBit_unique (n L : Nat) (h1 : 2 ^ L ≤ n) (h2 : n < 2 ^ (L + 1)) : topBit n n = L := by
  have hn : 0 < n := lt_of_lt_of_le (Nat.two_pow_pos _) h1
  obtain ⟨h3, h4⟩ := topBit_spec n n hn le_rfl
  have a : L < topBit n n + 1 := (Nat.pow_lt_pow_iff_right (by decide : 1 < 2)).1 (lt_of_le_of_lt h1 h4)
  have b : topBit n n < L + 1 := (Nat.pow_lt_pow_iff_right (by decide : 1 < 2)).1 (lt_of_le_of_lt h3 h2)
  omega

theorem topBit_mul_pow (n j : Nat) (hn : 0 < n) :
    topBit (n * 2 ^ j) (n * 2 ^ j) = topBit n n + j := by
  obtain ⟨h3, h4⟩ := topBit_spec n n hn le_rfl
  apply topBit_unique
  · rw [pow_add]; exact Nat.mul_le_mul_right _ h3
  · rw [show topBit n n + j + 1 = (topBit n n + 1) + j by omega, pow_add]
    exact Nat.mul_lt_mul_of_pos_right h4 (Nat.two_pow_pos _)

theorem topBit_lt (n L : Nat) (hn : 0 < n) (h : n < 2 ^ L) : topBit n n < L := by
  obtain ⟨h3, _⟩ := topBit_spec n n hn le_rfl
  exact (Nat.pow_lt_pow_iff_right (by decide : 1 < 2)).1 (lt_of_le_of_lt h3 h)

theorem signBit_le (s : Bool) : signBit s = 0 ∨ signBit s = 2147483648 := by
  cases s <;> simp [signBit]

theorem normal_fields (s : Bool) (L mm : Nat) (hL : L ≤ 127) (h1 : 8388608 ≤ mm)
    (h2 : mm < 16777216) :
    (normal s L mm).sign = s ∧ (normal s L mm).expField = 127 + L ∧
      (normal s L mm).fracField = mm - 8388608 := by
  unfold normal ofBits sign expField fracField
  cases s <;> simp only [signBit] <;> simp <;> omega

theorem normal_decode (s : Bool) (L mm : Nat) (hL : L ≤ 127) (h1 : 8388608 ≤ mm)
    (h2 : mm < 16777216) :
    (normal s L mm).isNaN = false ∧ (normal s L mm).isInf = false ∧
      (normal s L mm).mant = mm ∧ (normal s L mm).bexp = 127 + L ∧
      (normal s L mm).sign = s := by
  obtain ⟨hs, he, hf⟩ := normal_fields s L mm hL h1 h2
  refine ⟨?_, ?_, ?_, ?_, hs⟩
  · simp [isNaN, he]; omega
  · simp [isInf, he]; omega
  · simp [mant, he, hf]; omega
  · simp [bexp, he]

theorem round_scaled (s : Bool) (N j : Nat) (hN : 0 < N) (hN2 : N < 16777216) (hj : j ≤ 149) :
    round s (N * 2 ^ j) (150 - j) = normal s (topBit N N) (N * 2 ^ (23 - topBit N N)) := by
  have hL : topBit N N < 24 := topBit_lt N 24 hN (by simpa using hN2)
  obtain ⟨hlo, hhi⟩ := topBit_spec N N hN le_rfl
  have hmm : N * 2 ^ (23 - topBit N N) < 16777216 := by
    have : N * 2 ^ (23 - topBit N N) < 2 ^ (topBit N N + 1) * 2 ^ (23 - topBit N N) :=
      Nat.mul_lt_mul_of_pos_right hhi (Nat.two_pow_pos _)
    rw [← pow_add, show topBit N N + 1 + (23 - topBit N N) = 24 by omega] at this
    simpa using this
  unfold round
  simp only [topBit_mul_pow N j hN]
  by_cases hc : 24 ≤ topBit N N + j
  · simp only [hc, if_true]
    have hk : topBit N N + j - 23 ≤ j := by omega
    have hsplit : N * 2 ^ j = N * 2 ^ (23 - topBit N N) * 2 ^ (topBit N N + j - 23) := by
      rw [Nat.mul_assoc, ← pow_add]; congr 2; omega
    have hq : N * 2 ^ j / 2 ^ (topBit N N + j - 23) = N * 2 ^ (23 - topBit N N) := by
      rw [hsplit]; exact Nat.mul_div_cancel _ (Nat.two_pow_pos _)
    have hr : N * 2 ^ j % 2 ^ (topBit N N + j - 23) = 0 := by
      rw [hsplit]; exact Nat.mul_mod_left _ _
    have hh : 0 < 2 ^ (topBit N N + j - 23 - 1) := Nat.two_pow_pos _
    rw [hq, hr]
    have hcond : ¬ (2 ^ (topBit N N + j - 23 - 1) < 0 ∨
        0 = 2 ^ (topBit N N + j - 23 - 1) ∧ N * 2 ^ (23 - topBit N N) % 2 = 1) := by
      rintro (h | ⟨h, -⟩) <;> omega
    simp only [hcond, if_false]
    have hne : N * 2 ^ (23 - topBit N N) ≠ 16777216 := by omega
    simp only [hne, if_false]
    rw [if_neg (by omega)]
    unfold normal
    rw [show 150 - j + (topBit N N + j - 23) - 1 = 126 + topBit N N by omega]
  · simp only [hc, if_false]
    have hmin : min (23 - (topBit N N + j)) (150 - j - 1) = 23 - (topBit N N + j) := by omega
    rw [hmin, if_neg (by omega)]
    unfold normal
    have hm : N * 2 ^ j * 2 ^ (23 - (topBit N N + j)) = N * 2 ^ (23 - topBit N N) := by
      rw [Nat.mul_assoc, ← pow_add]; congr 2; omega
    rw [hm, show 150 - j - (23 - (topBit N N + j)) - 1 = 126 + topBit N N by omega]

theorem round_int (s : Bool) (N : Nat) (hN : 0 < N) (hN2 : N < 16777216) :
    round s N 150 = normal s (topBit N N) (N * 2 ^ (23 - topBit N N)) := by
  have := round_scaled s N 0 hN hN2 (by omega)
  simpa using this

theorem significand_bounds (N : Nat) (hN : 0 < N) (hN2 : N < 16777216) :
    topBit N N ≤ 23 ∧ 8388608 ≤ N * 2 ^ (23 - topBit N N) ∧
      N * 2 ^ (23 - topBit N N) < 16777216 := by
  have hL : topBit N N < 24 := topBit_lt N 24 hN (by simpa using hN2)
  obtain ⟨hlo, hhi⟩ := topBit_spec N N hN le_rfl
  refine ⟨by omega, ?_, ?_⟩
  · have : 2 ^ topBit N N * 2 ^ (23 - topBit N N) ≤ N * 2 ^ (23 - topBit N N) :=
      Nat.mul_le_mul_right _ hlo
    rw [← pow_add, show topBit N N + (23 - topBit N N) = 23 by omega] at this
    simpa using this
  · have : N * 2 ^ (23 - topBit N N) < 2 ^ (topBit N N + 1) * 2 ^ (23 - topBit N N) :=
      Nat.mul_lt_mul_of_pos_right hhi (Nat.two_pow_pos _)
    rw [← pow_add, show topBit N N + 1 + (23 - topBit N N) = 24 by omega] at this
    simpa using this

theorem ofInt_decode (a : Int) (ha : a.natAbs < 16777216) :
    ∃ e : Nat, 1 ≤ e ∧ e ≤ 150 ∧ (ofInt a).isNaN = false ∧ (ofInt a).isInf = false ∧
      (ofInt a).bexp = e ∧ (ofInt a).sval = a * 2 ^ (150 - e) ∧
      (ofInt a).sign = decide (a < 0) := by
  by_cases h0 : a = 0
  · subst h0
    exact ⟨1, by omega, by omega, by decide!, by decide!, by decide!, by decide!, by decide!⟩
  · have hpos : 0 < a.natAbs := Int.natAbs_pos.2 h0
    obtain ⟨hL, h1, h2⟩ := significand_bounds a.natAbs hpos ha
    obtain ⟨d1, d2, d3, d4, d5⟩ :=
      normal_decode (decide (a < 0)) (topBit a.natAbs a.natAbs)
        (a.natAbs * 2 ^ (23 - topBit a.natAbs a.natAbs)) (by omega) h1 h2
    have hof : ofInt a = normal (decide (a < 0)) (topBit a.natAbs a.natAbs)
        (a.natAbs * 2 ^ (23 - topBit a.natAbs a.natAbs)) := by
      unfold ofInt; rw [if_neg h0]; exact round_int _ _ hpos ha
    rw [hof]
    refine ⟨127 + topBit a.natAbs a.natAbs, by omega, by omega, d1, d2, d4, ?_, d5⟩
    unfold sval
    rw [d5, d3, show 150 - (127 + topBit a.natAbs a.natAbs) = 23 - topBit a.natAbs a.natAbs by omega]
    by_cases hneg : a < 0
    · simp only [hneg, decide_True, if_true]
      push_cast
      rw [abs_of_neg hneg]; ring
    · simp only [hneg, decide_False]
      push_cast
      rw [abs_of_nonneg (by omega)]

/-- Addition of integer-valued floats is exact while the operands and the sum stay below
`2^24` in magnitude. -/
theorem add_ofInt (a c : Int) (ha : a.natAbs < 16777216) (hc : c.natAbs < 16777216)
    (hac : (a + c).natAbs < 16777216) : ofInt a + ofInt c = ofInt (a + c) := by
  obtain ⟨e1, p1, p2, p3, p4, p5, p6, p7⟩ := ofInt_decode a ha
  obtain ⟨e2, q1, q2, q3, q4, q5, q6, q7⟩ := ofInt_decode c hc
  show add (ofInt a) (ofInt c) = ofInt (a + c)
  unfold add
  simp only [p3, p4, q3, q4, p5, p6, p7, q5, q6, q7]
  have hS : a * 2 ^ (150 - e1) * 2 ^ (e1 - min e1 e2) + c * 2 ^ (150 - e2) * 2 ^ (e2 - min e1 e2) =
      (a + c) * 2 ^ (150 - min e1 e2) := by
    rw [mul_assoc, mul_assoc, ← pow_add, ← pow_add,
      show 150 - e1 + (e1 - min e1 e2) = 150 - min e1 e2 by omega,
      show 150 - e2 + (e2 - min e1 e2) = 150 - min e1 e2 by omega]
    ring
  simp only [Bool.false_eq_true, if_false]
  rw [hS]
  have hpow : (0 : Int) < 2 ^ (150 - min e1 e2) := by positivity
  by_cases hz : a + c = 0
  · rw [hz]
    simp only [zero_mul, if_true]
    have : (decide (a < 0) && decide (c < 0)) = false := by
      simp only [Bool.and_eq_false_imp, decide_eq_true_eq, decide_eq_false_iff_not]
      intro h; omega
    rw [this]; rfl
  · have hne : (a + c) * 2 ^ (150 - min e1 e2) ≠ 0 := mul_ne_zero hz (ne_of_gt hpow)
    rw [if_neg hne]
    have hsign : decide ((a + c) * 2 ^ (150 - min e1 e2) < 0) = decide (a + c < 0) := by
      congr 1
      refine propext ⟨fun h => ?_, fun h => mul_neg_of_neg_of_pos h hpow⟩
      rcases lt_or_gt_of_ne hz with h1 | h1
      · exact h1
      · exact absurd h (not_lt.2 (mul_pos h1 hpow).le)
    have habs : ((a + c) * 2 ^ (150 - min e1 e2)).natAbs =
        (a + c).natAbs * 2 ^ (150 - min e1 e2) := by
      rw [Int.natAbs_mul, Int.natAbs_pow]; rfl
    have hpos : 0 < (a + c).natAbs := Int.natAbs_pos.2 hz
    rw [hsign, habs]
    have hb : min e1 e2 = 150 - (150 - min e1 e2) := by omega
    rw [show round (decide (a + c < 0)) ((a + c).natAbs * 2 ^ (150 - min e1 e2)) (min e1 e2) =
        round (decide (a + c < 0)) ((a + c).natAbs * 2 ^ (150 - min e1 e2))
          (150 - (150 - min e1 e2)) by rw [← hb]]
    rw [round_scaled _ _ _ hpos hac (by omega)]
    unfold ofInt
    rw [if_neg hz, round_int _ _ hpos hac]

end F32

/-! ## Lemmas on the event manager -/

theorem registered_registerListener {Obj : Type} (w : World Obj) (k k2 : EVENT_TYPE)
    (l : WeakPtr) :
    (w.registerListener k l).eventManager.m_listeners k2 =
      if k2 = k then some (w.registered k ++ [l]) else w.eventManager.m_listeners k2 := by
  unfold World.registerListener EventManager.registerListener World.registered
  cases h : w.eventManager.m_listeners k <;> by_cases hk : k2 = k <;>
    simp [Function.update, hk, h]

theorem registered_append {Obj : Type} (w : World Obj) (k k2 : EVENT_TYPE) (l : WeakPtr) :
    (w.registerListener k l).registered k2 =
      w.registered k2 ++ (if k2 = k then [l] else []) := by
  unfold World.registered
  rw [registered_registerListener]
  by_cases hk : k2 = k
  · subst hk; simp [World.registered]
  · rw [if_neg hk, if_neg hk, List.append_nil]

theorem heap_registerListener {Obj : Type} (w : World Obj) (k : EVENT_TYPE) (l : WeakPtr) :
    (w.registerListener k l).heap = w.heap := rfl

theorem heap_registerAll {Obj : Type} (regs : List (EVENT_TYPE × WeakPtr)) (w : World Obj) :
    (registerAll regs w).heap = w.heap := by
  induction regs generalizing w with
  | nil => rfl
  | cons r rs ih => simp only [registerAll, List.foldl_cons] at ih ⊢; rw [ih]; rfl

theorem registered_registerAll {Obj : Type} (regs : List (EVENT_TYPE × WeakPtr))
    (w : World Obj) (k : EVENT_TYPE) :
    (registerAll regs w).registered k =
      w.registered k ++ (regs.filter (fun r => decide (r.1 = k))).map (fun r => r.2) := by
  induction regs generalizing w with
  | nil => simp [registerAll]
  | cons r rs ih =>
    simp only [registerAll, List.foldl_cons] at ih ⊢
    rw [ih, registered_append]
    by_cases hk : k = r.1
    · subst hk; simp
    · have hk2 : ¬ r.1 = k := fun h => hk h.symm
      simp [hk, hk2]

theorem publishEvent_eq_loop {Obj : Type} (onUpdate : Dispatch Obj) (k : EVENT_TYPE)
    (m : String) (w : World Obj) :
    publishEvent onUpdate k m w = publishLoop onUpdate k m (w.registered k) w := by
  unfold publishEvent World.registered
  cases h : w.eventManager.m_listeners k <;> simp [publishLoop]

theorem publishLoop_calls {Obj : Type} (onUpdate : Dispatch Obj) (hl : KeepsLiveness onUpdate)
    (k : EVENT_TYPE) (m : String) (l : List WeakPtr) (w : World Obj) :
    (publishLoop onUpdate k m l w).2 = callsOn k m (w.live l) := by
  induction l generalizing w with
  | nil => rfl
  | cons p ps ih =>
    unfold publishLoop
    by_cases hp : w.expired p = true
    · simp only [hp, if_true]
      rw [ih]; simp [World.live, hp]
    · simp only [hp]
      have hlive : (onUpdate p k m w).live ps = w.live ps := by
        unfold World.live
        congr 1; funext q; rw [hl]
      rw [if_neg (by simp), ih, hlive]
      simp [World.live, hp, callsOn]

theorem publishLoop_expired {Obj : Type} (onUpdate : Dispatch Obj)
    (hl : KeepsLiveness onUpdate) (k : EVENT_TYPE) (m : String) (l : List WeakPtr)
    (w : World Obj) (q : WeakPtr) :
    (publishLoop onUpdate k m l w).1.expired q = w.expired q := by
  induction l generalizing w with
  | nil => rfl
  | cons p ps ih =>
    unfold publishLoop
    by_cases hp : w.expired p = true
    · simp only [hp, if_true]; exact ih w
    · simp only [hp]; rw [if_neg (by simp)]; simp only; rw [ih, hl]

theorem publishLoop_eventManager {Obj : Type} (onUpdate : Dispatch Obj)
    (hr : KeepsRegistry onUpdate) (k : EVENT_TYPE) (m : String) (l : List WeakPtr)
    (w : World Obj) :
    (publishLoop onUpdate k m l w).1.eventManager = w.eventManager := by
  induction l generalizing w with
  | nil => rfl
  | cons p ps ih =>
    unfold publishLoop
    by_cases hp : w.expired p = true
    · simp only [hp, if_true]; exact ih w
    · simp only [hp]; rw [if_neg (by simp)]; simp only; rw [ih, hr]

theorem keepsLiveness_actor : KeepsLiveness Listener.onUpdate := by
  intro p k m w q
  unfold Listener.onUpdate World.expired
  cases h : w.heap p with
  | none => rfl
  | some a =>
    by_cases hq : q = p
    · subst hq; simp [h]
    · simp [Function.update, hq]

theorem keepsRegistry_actor : KeepsRegistry Listener.onUpdate := by
  intro p k m w
  unfold Listener.onUpdate
  cases h : w.heap p <;> rfl

theorem publishLoop_actor_heap (k : EVENT_TYPE) (m : String) (l : List WeakPtr)
    (w : World Actor) (q : WeakPtr) :
    (publishLoop Listener.onUpdate k m l w).1.heap q =
      (w.heap q).map (fun a => (fun b : Actor => b.onUpdate k m)^[l.count q] a) := by
  induction l generalizing w with
  | nil => cases h : w.heap q <;> simp [publishLoop, h]
  | cons p ps ih =>
    unfold publishLoop
    cases hp : w.heap p with
    | none =>
      have he : w.expired p = true := by simp [World.expired, hp]
      simp only [he, if_true]
      rw [ih]
      by_cases hq : p = q
      · subst hq; simp [hp]
      · simp [List.count_cons, hq]
    | some a =>
      have he : w.expired p = false := by simp [World.expired, hp]
      simp only [he]
      rw [if_neg (by simp)]
      simp only
      rw [ih]
      by_cases hq : p = q
      · subst hq
        simp [Listener.onUpdate, hp, List.count_cons, Function.iterate_succ_apply]
      · have hq2 : ¬ q = p := fun h => hq h.symm
        simp [Listener.onUpdate, hp, List.count_cons, hq, Function.update, hq2]

theorem publishEvent_actor_heap (k : EVENT_TYPE) (m : String) (w : World Actor) (q : WeakPtr) :
    (publishEvent Listener.onUpdate k m w).1.heap q =
      (w.heap q).map (fun a => (fun b : Actor => b.onUpdate k m)^[(w.registered k).count q] a) := by
  rw [publishEvent_eq_loop]; exact publishLoop_actor_heap k m _ w q

theorem publishEvent_actor_registered (k k2 : EVENT_TYPE) (m : String) (w : World Actor) :
    (publishEvent Listener.onUpdate k m w).1.registered k2 = w.registered k2 := by
  unfold World.registered
  rw [publishEvent_eq_loop, publishLoop_eventManager Listener.onUpdate keepsRegistry_actor]

theorem actor_onUpdate_eq (a : Actor) (k : EVENT_TYPE) (p : String) :
    a.onUpdate k p =
      { a with m_position :=
          { a.m_position with
            rotation_angle := rotationStep a.m_position.rotation_angle p } } := by
  cases k
  unfold Actor.onUpdate rotationStep
  by_cases h1 : p = "UP"
  · subst h1; simp
  · by_cases h2 : p = "DOWN"
    · subst h2; simp
    · have h1s : ¬ "UP" = p := fun h => h1 h.symm
      have h2s : ¬ "DOWN" = p := fun h => h2 h.symm
      simp [h1, h2, h1s, h2s]

theorem publishAll_actor_heap (k : EVENT_TYPE) (p : WeakPtr) (msgs : List String)
    (w : World Actor) (a : Actor) (hreg : w.registered k = [p]) (ha : w.heap p = some a) :
    (publishAll Listener.onUpdate k msgs w).heap p =
      some { a with m_position :=
          { a.m_position with
            rotation_angle := msgs.foldl rotationStep a.m_position.rotation_angle } } := by
  induction msgs generalizing w a with
  | nil => simp [publishAll, ha]
  | cons m ms ih =>
    unfold publishAll
    rw [ih (publishEvent Listener.onUpdate k m w).1 (a.onUpdate k m)
      (by rw [publishEvent_actor_registered, hreg])
      (by rw [publishEvent_actor_heap, ha, hreg]; simp)]
    rw [actor_onUpdate_eq]
    simp

theorem F32.sub_ofInt_ten (a : Int) (ha : a.natAbs < 16777216)
    (hac : (a - 10).natAbs < 16777216) : F32.ofInt a - F32.ofInt 10 = F32.ofInt (a - 10) := by
  show F32.sub (F32.ofInt a) (F32.ofInt 10) = F32.ofInt (a - 10)
  unfold F32.sub
  have h1 : (F32.ofInt 10).isNaN = false := by decide!
  have h2 : F32.neg (F32.ofInt 10) = F32.ofInt (-10) := by decide!
  rw [h1, h2]
  simp only [Bool.false_eq_true, if_false]
  exact F32.add_ofInt a (-10) ha (by decide) hac

theorem iterate_onUpdate_up (a : Actor) :
    ((fun b : Actor => b.onUpdate EVENT_TYPE.KEY_PRESS "UP")^[2] a).m_position.rotation_angle =
      a.m_position.rotation_angle + F32.ofInt 10 + F32.ofInt 10 := by
  simp [Actor.onUpdate]

theorem registered_replicate (heap : WeakPtr → Option Actor) (k : EVENT_TYPE) (p : WeakPtr)
    (n : Nat) :
    (registerAll (List.replicate n (k, p)) (⟨EventManager.empty, heap⟩ : World Actor)).registered k
      = List.replicate n p := by
  rw [registered_registerAll]
  simp [World.registered, EventManager.empty, List.filter_replicate]

theorem frameLoop_eq_runFrames (lib : Lib) (env : Env) (n fuel i : Nat)
    (st : World Actor × List Obs)
    (hrun : ∀ j, j < n → env.glfwWindowShouldClose (i + j) = 0)
    (hclose : env.glfwWindowShouldClose (i + n) ≠ 0) (hfuel : n < fuel) :
    frameLoop lib env fuel i st = some (runFrames lib env n i st) := by
  induction n generalizing fuel i st with
  | zero =>
    obtain ⟨f, rfl⟩ : ∃ f, fuel = f + 1 := ⟨fuel - 1, by omega⟩
    simp only [frameLoop, runFrames]
    rw [if_pos (by simpa using hclose)]
  | succ n ih =>
    obtain ⟨f, rfl⟩ : ∃ f, fuel = f + 1 := ⟨fuel - 1, by omega⟩
    have h0 : env.glfwWindowShouldClose i = 0 := by simpa using hrun 0 (by omega)
    simp only [frameLoop, runFrames]
    rw [if_neg (by simp [h0])]
    apply ih
    · intro j hj
      have := hrun (j + 1) (by omega)
      rwa [show i + (j + 1) = i + 1 + j by omega] at this
    · rwa [show i + (n + 1) = i + 1 + n by omega] at hclose
    · omega

theorem pollEvents_expired (lib : Lib) (es : List KeyEvent) (w : World Actor) (q : WeakPtr) :
    (pollEvents lib es w).1.expired q = w.expired q := by
  induction es generalizing w with
  | nil => rfl
  | cons e es ih =>
    simp only [pollEvents]
    rw [ih]
    unfold key_callback
    split_ifs <;> first
      | rfl
      | (rw [publishEvent_eq_loop]; exact publishLoop_expired _ keepsLiveness_actor _ _ _ _ _)

theorem actorUpdate_expired (w : World Actor) (q : WeakPtr) :
    (actorUpdate w).expired q = w.expired q := by
  unfold actorUpdate
  cases h : w.heap triangleActor with
  | none => rfl
  | some a =>
    simp only [World.expired]
    by_cases hq : q = triangleActor
    · subst hq; simp [h]
    · simp [Function.update, hq]

theorem frame_expired (lib : Lib) (env : Env) (i : Nat) (w : World Actor) (q : WeakPtr) :
    (frame lib env i w).1.expired q = w.expired q := by
  unfold frame
  simp only
  rw [pollEvents_expired, actorUpdate_expired]

theorem frame_count (lib : Lib) (env : Env) (i : Nat) (w : World Actor) :
    (frame lib env i w).2.count Obs.clear = 1 ∧
      (frame lib env i w).2.count Obs.projection = 1 ∧
      (frame lib env i w).2.count Obs.actorUpdate = 1 ∧
      (frame lib env i w).2.count Obs.glfwSwapBuffers = 1 ∧
      (frame lib env i w).2.count Obs.glfwPollEvents = 1 := by
  have hmap : ∀ (l : List Invocation) (o : Obs), (∀ c, o ≠ Obs.onUpdate c) →
      (l.map Obs.onUpdate).count o = 0 := by
    intro l o ho
    rw [List.count_eq_zero]
    intro hmem
    obtain ⟨c, -, hc⟩ := List.mem_map.1 hmem
    exact ho c hc.symm
  have hren : ∀ (w : World Actor) (o : Obs), (∀ p c, o ≠ Obs.drawTriangle p c) →
      (onRender w).count o = 0 := by
    intro w o ho
    unfold onRender
    cases w.heap triangleActor with
    | none => rfl
    | some a =>
      rw [List.count_eq_zero]
      intro hmem
      exact ho _ _ (List.mem_singleton.1 hmem)
  unfold frame
  simp only [List.count_append]
  refine ⟨?_, ?_, ?_, ?_, ?_⟩ <;>
    (rw [hmap _ _ (by intro c; simp), hren _ _ (by intro p c; simp)]; decide)

theorem frame_draw (lib : Lib) (env : Env) (i : Nat) (w : World Actor)
    (hw : w.expired triangleActor = false) :
    (frame lib env i w).2.countP Obs.isDraw = 1 := by
  unfold frame
  simp only [List.countP_append]
  have h1 : (List.map Obs.onUpdate (pollEvents lib (env.glfwPollEvents i) (actorUpdate w)).2).countP
      Obs.isDraw = 0 := by
    rw [List.countP_eq_zero]
    intro o ho
    obtain ⟨c, -, rfl⟩ := List.mem_map.1 ho
    simp [Obs.isDraw]
  have h2 : (onRender (actorUpdate w)).countP Obs.isDraw = 1 := by
    have := actorUpdate_expired w triangleActor
    rw [hw] at this
    unfold onRender
    unfold World.expired at this
    cases h : (actorUpdate w).heap triangleActor with
    | none => simp [h] at this
    | some a => simp [Obs.isDraw]
  rw [h1, h2]
  simp [Obs.isDraw]

theorem runFrames_count (lib : Lib) (env : Env) (n i : Nat) (st : World Actor × List Obs) :
    (runFrames lib env n i st).2.count Obs.clear = st.2.count Obs.clear + n ∧
      (runFrames lib env n i st).2.count Obs.projection = st.2.count Obs.projection + n ∧
      (runFrames lib env n i st).2.count Obs.actorUpdate = st.2.count Obs.actorUpdate + n ∧
      (runFrames lib env n i st).2.count Obs.glfwSwapBuffers =
        st.2.count Obs.glfwSwapBuffers + n ∧
      (runFrames lib env n i st).2.count Obs.glfwPollEvents =
        st.2.count Obs.glfwPollEvents + n := by
  induction n generalizing i st with
  | zero => simp [runFrames]
  | succ n ih =>
    simp only [runFrames]
    obtain ⟨a1, a2, a3, a4, a5⟩ := ih (i + 1) ((frame lib env i st.1).1, st.2 ++ (frame lib env i st.1).2)
    obtain ⟨b1, b2, b3, b4, b5⟩ := frame_count lib env i st.1
    simp only [List.count_append] at a1 a2 a3 a4 a5
    refine ⟨?_, ?_, ?_, ?_, ?_⟩ <;> omega

theorem runFrames_draw (lib : Lib) (env : Env) (n i : Nat) (st : World Actor × List Obs)
    (hw : st.1.expired triangleActor = false) :
    (runFrames lib env n i st).2.countP Obs.isDraw = st.2.countP Obs.isDraw + n ∧
      (runFrames lib env n i st).1.expired triangleActor = false := by
  induction n generalizing i st with
  | zero => simp [runFrames, hw]
  | succ n ih =>
    simp only [runFrames]
    obtain ⟨a1, a2⟩ := ih (i + 1) ((frame lib env i st.1).1, st.2 ++ (frame lib env i st.1).2)
      (by rw [frame_expired]; exact hw)
    have b := frame_draw lib env i st.1 hw
    simp only [List.countP_append] at a1
    exact ⟨by omega, a2⟩

theorem publishLoop_registering {Obj : Type} (onUpdate : Dispatch Obj)
    (hl : KeepsLiveness onUpdate) (k : EVENT_TYPE) (m : String) (p q : WeakPtr)
    (hp : ∀ w, (onUpdate p k m w).eventManager = w.eventManager.registerListener k q)
    (ho : ∀ p2, p2 ≠ p → ∀ w, (onUpdate p2 k m w).eventManager = w.eventManager)
    (l : List WeakPtr) (w : World Obj) :
    (publishLoop onUpdate k m l w).1.registered k =
      w.registered k ++ List.replicate ((w.live l).count p) q := by
  induction l generalizing w with
  | nil => simp [publishLoop, World.live]
  | cons x xs ih =>
    unfold publishLoop
    by_cases hx : w.expired x = true
    · simp only [hx, if_true]
      rw [ih]
      simp [World.live, hx]
    · have hlive : (onUpdate x k m w).live xs = w.live xs := by
        unfold World.live
        congr 1; funext y; rw [hl]
      rw [if_neg hx]
      simp only
      rw [ih, hlive]
      have hcons : w.live (x :: xs) = x :: w.live xs := by
        simp [World.live, hx]
      rw [hcons]
      by_cases hxp : x = p
      · subst hxp
        have : (onUpdate x k m w).registered k = w.registered k ++ [q] := by
          have h1 := registered_append w k k q
          simp only [if_true] at h1
          rw [← h1]
          unfold World.registered World.registerListener
          rw [hp]
        rw [this, List.count_cons_self, List.replicate_succ, List.append_assoc]
        rfl
      · have : (onUpdate x k m w).registered k = w.registered k := by
          unfold World.registered; rw [ho x hxp]
        rw [this, List.count_cons_of_ne (fun h => hxp h.symm)]

theorem keepsLiveness_registering (p q : WeakPtr) : KeepsLiveness (registeringDispatch p q) := by
  intro x k m w y
  unfold registeringDispatch
  by_cases h : x = p
  · simp [h, World.expired, heap_registerListener]
  · simp only [h, if_false]; exact keepsLiveness_actor x k m w y

/-! ## The claims -/

/-- C1: for every Actor and every payload `p`, `Actor::onUpdate(KEY_PRESS, p)` returns the
same Actor with only the rotation angle replaced, by `θ + 10` for "UP", `θ - 10` for
"DOWN" and `θ` itself for any other payload ("LEFT" and "RIGHT" included, where the
whole state is unchanged); id, x, y, color and components are never changed. -/
theorem C1_actor_onUpdate_key_press (a : Actor) (p : String) :
    a.onUpdate EVENT_TYPE.KEY_PRESS p =
        { a with m_position :=
            { a.m_position with
              rotation_angle := rotationStep a.m_position.rotation_angle p } } ∧
      (a.onUpdate EVENT_TYPE.KEY_PRESS "UP").m_position.rotation_angle =
        a.m_position.rotation_angle + F32.ofInt 10 ∧
      (a.onUpdate EVENT_TYPE.KEY_PRESS "DOWN").m_position.rotation_angle =
        a.m_position.rotation_angle - F32.ofInt 10 ∧
      a.onUpdate EVENT_TYPE.KEY_PRESS "LEFT" = a ∧
      a.onUpdate EVENT_TYPE.KEY_PRESS "RIGHT" = a ∧
      (p = "UP" ∨ p = "DOWN" ∨ a.onUpdate EVENT_TYPE.KEY_PRESS p = a) ∧
      (a.onUpdate EVENT_TYPE.KEY_PRESS p).m_id = a.m_id ∧
      (a.onUpdate EVENT_TYPE.KEY_PRESS p).m_position.x_position = a.m_position.x_position ∧
      (a.onUpdate EVENT_TYPE.KEY_PRESS p).m_position.y_position = a.m_position.y_position ∧
      (a.onUpdate EVENT_TYPE.KEY_PRESS p).m_color = a.m_color ∧
      (a.onUpdate EVENT_TYPE.KEY_PRESS p).m_components = a.m_components := by
  refine ⟨actor_onUpdate_eq a EVENT_TYPE.KEY_PRESS p, ?_, ?_, ?_, ?_, ?_, ?_⟩
  · simp [Actor.onUpdate]
  · simp [Actor.onUpdate]
  · simp [Actor.onUpdate]
  · simp [Actor.onUpdate]
  · by_cases h1 : p = "UP"
    · exact Or.inl h1
    · by_cases h2 : p = "DOWN"
      · exact Or.inr (Or.inl h2)
      · have h1s : ¬ "UP" = p := fun h => h1 h.symm
        have h2s : ¬ "DOWN" = p := fun h => h2 h.symm
        exact Or.inr (Or.inr (by simp [Actor.onUpdate, h1s, h2s]))
  · unfold Actor.onUpdate
    split_ifs <;> simp

/-- C2: after any sequence of `registerListener` calls on an empty registry, a publish of
`(k, m)` calls `onUpdate(k, m)` on the live targets registered for `k`, in registration
order, once per registration, and on nothing else (reactions that do not change which
listeners are alive); `registerListener` appends the reference at the end of the
collection of `k`, created when absent, and changes nothing else. -/
theorem C2_publish_in_registration_order {Obj : Type} (onUpdate : Dispatch Obj)
    (hl : KeepsLiveness onUpdate) (regs : List (EVENT_TYPE × WeakPtr))
    (heap : WeakPtr → Option Obj) (k : EVENT_TYPE) (m : String) :
    (publishEvent onUpdate k m (registerAll regs ⟨EventManager.empty, heap⟩)).2 =
        callsOn k m
          (((regs.filter (fun r => decide (r.1 = k))).map (fun r => r.2)).filter
            (fun p => (heap p).isSome)) ∧
      (registerAll regs (⟨EventManager.empty, heap⟩ : World Obj)).registered k =
        (regs.filter (fun r => decide (r.1 = k))).map (fun r => r.2) ∧
      ∀ (w : World Obj) (k1 k2 : EVENT_TYPE) (l : WeakPtr),
        (w.registerListener k1 l).eventManager.m_listeners k2 =
            (if k2 = k1 then some (w.registered k1 ++ [l])
             else w.eventManager.m_listeners k2) ∧
          (w.registerListener k1 l).heap = w.heap := by
  have hreg : (registerAll regs (⟨EventManager.empty, heap⟩ : World Obj)).registered k =
      (regs.filter (fun r => decide (r.1 = k))).map (fun r => r.2) := by
    rw [registered_registerAll]; simp [World.registered, EventManager.empty]
  refine ⟨?_, hreg, fun w k1 k2 l => ⟨registered_registerListener w k1 k2 l, rfl⟩⟩
  rw [publishEvent_eq_loop, publishLoop_calls onUpdate hl, hreg]
  unfold World.live World.expired
  rw [heap_registerAll]
  congr 2
  funext p
  show (!(heap p).isNone) = (heap p).isSome
  cases heap p <;> rfl

/-- Witness for C2: four registrations on an empty registry, one of them of a reference
whose target does not exist. -/
theorem C2_witness :
    KeepsLiveness Listener.onUpdate ∧
      (publishEvent Listener.onUpdate EVENT_TYPE.KEY_PRESS "UP"
        (registerAll [(EVENT_TYPE.KEY_PRESS, 2), (EVENT_TYPE.KEY_PRESS, 0),
            (EVENT_TYPE.KEY_PRESS, 5), (EVENT_TYPE.KEY_PRESS, 2)]
          ⟨EventManager.empty,
            Function.update (Function.update (fun _ => none) 0 (some mainActor)) 2
              (some mainActor)⟩)).2 =
        [⟨2, EVENT_TYPE.KEY_PRESS, "UP"⟩, ⟨0, EVENT_TYPE.KEY_PRESS, "UP"⟩,
          ⟨2, EVENT_TYPE.KEY_PRESS, "UP"⟩] :=
  ⟨keepsLiveness_actor,
    (C2_publish_in_registration_order Listener.onUpdate keepsLiveness_actor
      [(EVENT_TYPE.KEY_PRESS, 2), (EVENT_TYPE.KEY_PRESS, 0), (EVENT_TYPE.KEY_PRESS, 5),
        (EVENT_TYPE.KEY_PRESS, 2)]
      (Function.update (Function.update (fun _ => none) 0 (some mainActor)) 2 (some mainActor))
      EVENT_TYPE.KEY_PRESS "UP").1.trans (by decide)⟩

/-- C3: when reactions leave the registry and the liveness of listeners alone, a publish
on a registry holding released references calls exactly the live registered targets, in
order (`n` calls for a live target registered `n` times, none for a released one), and
leaves the event manager, dead entries included, and the liveness of every object
unchanged. -/
theorem C3_released_targets_skipped {Obj : Type} (onUpdate : Dispatch Obj)
    (hl : KeepsLiveness onUpdate) (hr : KeepsRegistry onUpdate) (k : EVENT_TYPE) (m : String)
    (w : World Obj) :
    (publishEvent onUpdate k m w).2 =
        callsOn k m ((w.registered k).filter (fun p => !w.expired p)) ∧
      ((publishEvent onUpdate k m w).2.all (fun c => !w.expired c.target)) = true ∧
      (∀ p, ((publishEvent onUpdate k m w).2.map (fun c => c.target)).count p =
        if w.expired p then 0 else (w.registered k).count p) ∧
      (publishEvent onUpdate k m w).1.eventManager = w.eventManager ∧
      ∀ q, (publishEvent onUpdate k m w).1.expired q = w.expired q := by
  have hc : (publishEvent onUpdate k m w).2 =
      callsOn k m ((w.registered k).filter (fun p => !w.expired p)) := by
    rw [publishEvent_eq_loop, publishLoop_calls onUpdate hl]; rfl
  refine ⟨hc, ?_, ?_, ?_, ?_⟩
  · rw [hc]; simp only [callsOn, List.all_eq_true, List.mem_map, List.mem_filter]
    rintro c ⟨p, ⟨-, hp⟩, rfl⟩
    exact hp
  · intro p
    rw [hc]
    simp only [callsOn, List.map_map]
    have : ((fun c : Invocation => c.target) ∘ fun p => (⟨p, k, m⟩ : Invocation)) = id := rfl
    rw [this, List.map_id]
    by_cases hp : w.expired p = true
    · simp [hp, List.count_eq_zero, List.mem_filter]
    · simp only [hp]
      rw [List.count_filter]
      · simp
      · simpa using hp
  · rw [publishEvent_eq_loop]; exact publishLoop_eventManager onUpdate hr k m _ w
  · intro q; rw [publishEvent_eq_loop]; exact publishLoop_expired onUpdate hl k m _ w q

/-- Witness for C3: the references 0, 1, 0 with the target of 1 released. -/
theorem C3_witness :
    KeepsLiveness Listener.onUpdate ∧ KeepsRegistry Listener.onUpdate ∧
      (publishEvent Listener.onUpdate EVENT_TYPE.KEY_PRESS "DOWN" World.withReleased).2 =
        [⟨0, EVENT_TYPE.KEY_PRESS, "DOWN"⟩, ⟨0, EVENT_TYPE.KEY_PRESS, "DOWN"⟩] ∧
      (publishEvent Listener.onUpdate EVENT_TYPE.KEY_PRESS "DOWN"
        World.withReleased).1.eventManager = World.withReleased.eventManager :=
  ⟨keepsLiveness_actor, keepsRegistry_actor,
    (C3_released_targets_skipped Listener.onUpdate keepsLiveness_actor keepsRegistry_actor
      EVENT_TYPE.KEY_PRESS "DOWN" World.withReleased).1.trans (by decide),
    (C3_released_targets_skipped Listener.onUpdate keepsLiveness_actor keepsRegistry_actor
      EVENT_TYPE.KEY_PRESS "DOWN" World.withReleased).2.2.2.1⟩

/-- C4: in a state where the kind `k` has no listener, and after any registrations for
other kinds, a publish of `(k, m)` calls no listener and returns the state unchanged. -/
theorem C4_publish_without_listener {Obj : Type} (onUpdate : Dispatch Obj) (w : World Obj)
    (regs : List (EVENT_TYPE × WeakPtr)) (k : EVENT_TYPE) (m : String)
    (hw : w.registered k = []) (hk : ∀ r ∈ regs, r.1 ≠ k) :
    publishEvent onUpdate k m (registerAll regs w) = (registerAll regs w, []) := by
  rw [publishEvent_eq_loop, registered_registerAll, hw]
  have : regs.filter (fun r => decide (r.1 = k)) = [] := by
    rw [List.filter_eq_nil_iff]
    intro r hr
    simpa using hk r hr
  rw [this]; rfl

/-- Witness for C4: a publish at the start of `main`, before any registration. -/
theorem C4_witness :
    World.start.registered EVENT_TYPE.KEY_PRESS = [] ∧
      (∀ r ∈ ([] : List (EVENT_TYPE × WeakPtr)), r.1 ≠ EVENT_TYPE.KEY_PRESS) ∧
      publishEvent Listener.onUpdate EVENT_TYPE.KEY_PRESS "UP" (registerAll [] World.start) =
        (registerAll [] World.start, []) :=
  ⟨rfl, fun _ h => absurd h (List.not_mem_nil _),
    C4_publish_without_listener Listener.onUpdate World.start [] EVENT_TYPE.KEY_PRESS "UP" rfl
      (fun _ h => absurd h (List.not_mem_nil _))⟩

/-- C5 (amended): a listener registered `n` times for a kind reacts `n` times per publish
(no duplicate detection).  An Actor registered twice for KEY_PRESS is, after one publish
of "UP", at the float `(θ + 10) + 10`; this is `t + 20` when `θ` is the integer `t` and
`|t| + 20 < 2^24`. -/
theorem C5_registered_n_times_reacts_n_times (a : Actor) (heap0 : WeakPtr → Option Actor)
    (p : WeakPtr) (n : Nat) (m : String) :
    (publishEvent Listener.onUpdate EVENT_TYPE.KEY_PRESS m
        (registerAll (List.replicate n (EVENT_TYPE.KEY_PRESS, p))
          ⟨EventManager.empty, Function.update heap0 p (some a)⟩)).2 =
        List.replicate n ⟨p, EVENT_TYPE.KEY_PRESS, m⟩ ∧
      (publishEvent Listener.onUpdate EVENT_TYPE.KEY_PRESS m
        (registerAll (List.replicate n (EVENT_TYPE.KEY_PRESS, p))
          ⟨EventManager.empty, Function.update heap0 p (some a)⟩)).1.heap p =
        some ((fun b : Actor => b.onUpdate EVENT_TYPE.KEY_PRESS m)^[n] a) ∧
      ((publishEvent Listener.onUpdate EVENT_TYPE.KEY_PRESS "UP"
        (registerAll [(EVENT_TYPE.KEY_PRESS, p), (EVENT_TYPE.KEY_PRESS, p)]
          ⟨EventManager.empty, Function.update heap0 p (some a)⟩)).1.heap p).map
          (fun b => b.m_position.rotation_angle) =
        some (a.m_position.rotation_angle + F32.ofInt 10 + F32.ofInt 10) ∧
      ∀ t : Int, t.natAbs + 20 < 16777216 → a.m_position.rotation_angle = F32.ofInt t →
        ((publishEvent Listener.onUpdate EVENT_TYPE.KEY_PRESS "UP"
          (registerAll [(EVENT_TYPE.KEY_PRESS, p), (EVENT_TYPE.KEY_PRESS, p)]
            ⟨EventManager.empty, Function.update heap0 p (some a)⟩)).1.heap p).map
            (fun b => b.m_position.rotation_angle) = some (F32.ofInt (t + 20)) := by
  have hheap : ∀ n : Nat, (registerAll (List.replicate n (EVENT_TYPE.KEY_PRESS, p))
      (⟨EventManager.empty, Function.update heap0 p (some a)⟩ : World Actor)).heap p = some a := by
    intro n; rw [heap_registerAll]; simp
  have hstate : ∀ (n : Nat) (m : String),
      (publishEvent Listener.onUpdate EVENT_TYPE.KEY_PRESS m
        (registerAll (List.replicate n (EVENT_TYPE.KEY_PRESS, p))
          ⟨EventManager.empty, Function.update heap0 p (some a)⟩)).1.heap p =
        some ((fun b : Actor => b.onUpdate EVENT_TYPE.KEY_PRESS m)^[n] a) := by
    intro n m
    rw [publishEvent_actor_heap, hheap, registered_replicate]
    simp
  have htwo : ((publishEvent Listener.onUpdate EVENT_TYPE.KEY_PRESS "UP"
        (registerAll [(EVENT_TYPE.KEY_PRESS, p), (EVENT_TYPE.KEY_PRESS, p)]
          ⟨EventManager.empty, Function.update heap0 p (some a)⟩)).1.heap p).map
          (fun b => b.m_position.rotation_angle) =
        some (a.m_position.rotation_angle + F32.ofInt 10 + F32.ofInt 10) := by
    have := hstate 2 "UP"
    simp only [List.replicate] at this
    rw [this, Option.map_some', iterate_onUpdate_up]
  refine ⟨?_, hstate n m, htwo, ?_⟩
  · rw [publishEvent_eq_loop, publishLoop_calls _ keepsLiveness_actor, registered_replicate]
    have hlive : ∀ n : Nat, (registerAll (List.replicate n (EVENT_TYPE.KEY_PRESS, p))
        (⟨EventManager.empty, Function.update heap0 p (some a)⟩ : World Actor)).live
          (List.replicate n p) = List.replicate n p := by
      intro n
      unfold World.live
      rw [List.filter_eq_self]
      intro q hq
      rw [List.eq_of_mem_replicate hq]
      simp [World.expired, hheap]
    rw [hlive]
    simp [callsOn]
  · intro t ht hθ
    rw [htwo, hθ, F32.add_ofInt t 10 (by omega) (by decide) (by omega),
      F32.add_ofInt (t + 10) 10 (by omega) (by decide) (by omega)]
    congr 2; ring

/-- C5 as stated fails for the Actor at `θ = 2^27` (bit pattern `0x4D000000`): after two
registrations and one publish of "UP" it is at `2^27 + 32` (bit pattern `0x4D000002`),
while `θ + 20` is the float `2^27 + 16`, whether `20` is added as a float or as an
integer before conversion. -/
theorem C5_counterexample :
    F32.ofInt 134217728 = F32.ofBits 0x4D000000 ∧
      ((publishEvent Listener.onUpdate EVENT_TYPE.KEY_PRESS "UP"
        (registerAll [(EVENT_TYPE.KEY_PRESS, 0), (EVENT_TYPE.KEY_PRESS, 0)]
          ⟨EventManager.empty,
            Function.update (fun _ => none) 0
              (some (Actor.new 1 ⟨F32.ofInt 1, F32.ofInt 1, F32.ofInt 134217728⟩
                ⟨1, 1, 1⟩))⟩)).1.heap 0).map
          (fun b => b.m_position.rotation_angle) = some (F32.ofBits 0x4D000002) ∧
      ((publishEvent Listener.onUpdate EVENT_TYPE.KEY_PRESS "UP"
        (registerAll [(EVENT_TYPE.KEY_PRESS, 0), (EVENT_TYPE.KEY_PRESS, 0)]
          ⟨EventManager.empty,
            Function.update (fun _ => none) 0
              (some (Actor.new 1 ⟨F32.ofInt 1, F32.ofInt 1, F32.ofInt 134217728⟩
                ⟨1, 1, 1⟩))⟩)).1.heap 0).map
          (fun b => b.m_position.rotation_angle) ≠
        some (F32.ofInt 134217728 + F32.ofInt 20) ∧
      F32.ofInt (134217728 + 32) = F32.ofBits 0x4D000002 ∧
      F32.ofInt 134217728 + F32.ofInt 20 = F32.ofBits 0x4D000001 ∧
      F32.ofInt (134217728 + 20) = F32.ofBits 0x4D000001 ∧
      F32.ofInt (134217728 + 16) = F32.ofBits 0x4D000001 := by
  decide!

/-- Witness for C5: the Actor of `main`, at angle 0, registered twice, is at angle 20 after
one "UP". -/
theorem C5_witness :
    ((publishEvent Listener.onUpdate EVENT_TYPE.KEY_PRESS "UP"
      (registerAll [(EVENT_TYPE.KEY_PRESS, 0), (EVENT_TYPE.KEY_PRESS, 0)]
        ⟨EventManager.empty, Function.update (fun _ => none) 0 (some mainActor)⟩)).1.heap 0).map
        (fun b => b.m_position.rotation_angle) = some (F32.ofInt 20) :=
  (C5_registered_n_times_reacts_n_times mainActor (fun _ => none) 0 2 "UP").2.2.2 0
    (by decide) rfl

/-- C6: for an Actor registered once for KEY_PRESS and kept alive, after publishing any
finite sequence of KEY_PRESS payloads the rotation angle is the initial angle with `+10`
applied for each "UP" and `-10` for each "DOWN", in publication order, and the rest of
the Actor is as constructed.  The Actor of `main`, created with pose (1.0, 1.0, 0), is
at angle 30 after three "UP" and at angle 20 after one further "DOWN"; so is it at the
end of a run of `main` that receives these key presses. -/
theorem C6_rotation_follows_payloads (a : Actor) (heap0 : WeakPtr → Option Actor)
    (p : WeakPtr) (msgs : List String) :
    (publishAll Listener.onUpdate EVENT_TYPE.KEY_PRESS msgs
        ((⟨EventManager.empty, Function.update heap0 p (some a)⟩ : World Actor).registerListener
          EVENT_TYPE.KEY_PRESS p)).heap p =
        some { a with m_position :=
          { a.m_position with
            rotation_angle := msgs.foldl rotationStep a.m_position.rotation_angle } } ∧
      mainActor.m_position = ⟨F32.ofInt 1, F32.ofInt 1, F32.ofInt 0⟩ ∧
      (publishAll Listener.onUpdate EVENT_TYPE.KEY_PRESS ["UP", "UP", "UP"]
        (World.withActor mainActor)).heap triangleActor =
        some { mainActor with m_position := ⟨F32.ofInt 1, F32.ofInt 1, F32.ofInt 30⟩ } ∧
      (publishAll Listener.onUpdate EVENT_TYPE.KEY_PRESS ["UP", "UP", "UP", "DOWN"]
        (World.withActor mainActor)).heap triangleActor =
        some { mainActor with m_position := ⟨F32.ofInt 1, F32.ofInt 1, F32.ofInt 20⟩ } ∧
      (main Lib.headers Env.demo 6).map (fun r => (r.code, r.world.heap triangleActor)) =
        some (0, some { mainActor with m_position := ⟨F32.ofInt 1, F32.ofInt 1, F32.ofInt 20⟩ })
    := by
  refine ⟨?_, rfl, by decide!, by decide!, by decide!⟩
  apply publishAll_actor_heap
  · rw [registered_append]; simp [World.registered, EventManager.empty]
  · rw [heap_registerListener]; simp

/-- C7: with the four arrow key codes pairwise distinct, `key_callback` for a key-down
transition (`GLFW_PRESS`) of the up, down, left or right arrow makes exactly one
`publishEvent` call, of KEY_PRESS with payload "UP", "DOWN", "LEFT" or "RIGHT"
respectively; for any other action and for any other key it publishes nothing. -/
theorem C7_key_callback_publishes {Obj : Type} (lib : Lib) (onUpdate : Dispatch Obj)
    (hUD : lib.GLFW_KEY_UP ≠ lib.GLFW_KEY_DOWN) (hUL : lib.GLFW_KEY_UP ≠ lib.GLFW_KEY_LEFT)
    (hUR : lib.GLFW_KEY_UP ≠ lib.GLFW_KEY_RIGHT) (hDL : lib.GLFW_KEY_DOWN ≠ lib.GLFW_KEY_LEFT)
    (hDR : lib.GLFW_KEY_DOWN ≠ lib.GLFW_KEY_RIGHT)
    (hLR : lib.GLFW_KEY_LEFT ≠ lib.GLFW_KEY_RIGHT)
    (key scancode action mods : Int) (w : World Obj) :
    key_callback lib onUpdate lib.GLFW_KEY_UP scancode lib.GLFW_PRESS mods w =
        publishEvent onUpdate EVENT_TYPE.KEY_PRESS "UP" w ∧
      key_callback lib onUpdate lib.GLFW_KEY_DOWN scancode lib.GLFW_PRESS mods w =
        publishEvent onUpdate EVENT_TYPE.KEY_PRESS "DOWN" w ∧
      key_callback lib onUpdate lib.GLFW_KEY_LEFT scancode lib.GLFW_PRESS mods w =
        publishEvent onUpdate EVENT_TYPE.KEY_PRESS "LEFT" w ∧
      key_callback lib onUpdate lib.GLFW_KEY_RIGHT scancode lib.GLFW_PRESS mods w =
        publishEvent onUpdate EVENT_TYPE.KEY_PRESS "RIGHT" w ∧
      (action ≠ lib.GLFW_PRESS → key_callback lib onUpdate key scancode action mods w = (w, [])) ∧
      (key ≠ lib.GLFW_KEY_UP → key ≠ lib.GLFW_KEY_DOWN → key ≠ lib.GLFW_KEY_LEFT →
        key ≠ lib.GLFW_KEY_RIGHT →
        key_callback lib onUpdate key scancode action mods w = (w, [])) := by
  refine ⟨?_, ?_, ?_, ?_, ?_, ?_⟩
  · simp [key_callback]
  · simp [key_callback, hUD.symm]
  · simp [key_callback, hUL.symm, hDL.symm]
  · simp [key_callback, hUR.symm, hDR.symm, hLR.symm]
  · intro h; simp [key_callback, h]
  · intro h1 h2 h3 h4; simp [key_callback, h1, h2, h3, h4]

/-- Witness for C7: with the key codes of the GLFW header, the down arrow going down
publishes "DOWN" and its release publishes nothing. -/
theorem C7_witness :
    Lib.headers.GLFW_KEY_UP ≠ Lib.headers.GLFW_KEY_DOWN ∧
      Lib.headers.GLFW_KEY_UP ≠ Lib.headers.GLFW_KEY_LEFT ∧
      Lib.headers.GLFW_KEY_UP ≠ Lib.headers.GLFW_KEY_RIGHT ∧
      Lib.headers.GLFW_KEY_DOWN ≠ Lib.headers.GLFW_KEY_LEFT ∧
      Lib.headers.GLFW_KEY_DOWN ≠ Lib.headers.GLFW_KEY_RIGHT ∧
      Lib.headers.GLFW_KEY_LEFT ≠ Lib.headers.GLFW_KEY_RIGHT ∧
      key_callback Lib.headers Listener.onUpdate 264 0 1 0 (World.withActor mainActor) =
        publishEvent Listener.onUpdate EVENT_TYPE.KEY_PRESS "DOWN" (World.withActor mainActor) ∧
      key_callback Lib.headers Listener.onUpdate 264 0 0 0 (World.withActor mainActor) =
        (World.withActor mainActor, []) :=
  ⟨by decide, by decide, by decide, by decide, by decide, by decide,
    (C7_key_callback_publishes Lib.headers Listener.onUpdate (by decide) (by decide) (by decide)
      (by decide) (by decide) (by decide) 264 0 0 0 (World.withActor mainActor)).2.1,
    (C7_key_callback_publishes Lib.headers Listener.onUpdate (by decide) (by decide) (by decide)
      (by decide) (by decide) (by decide) 264 0 0 0 (World.withActor mainActor)).2.2.2.2.1
      (by decide)⟩

/-- C8: when `glfwInit`, `glfwCreateWindow` or `glewInit` fails, `main` returns -1 at
the first stage that fails, whatever the fuel: no Actor has been created or registered
and no step of the frame loop has been taken. -/
theorem C8_failed_setup_returns_minus_one (lib : Lib) (env : Env) (fuel : Nat)
    (h : env.glfwInit = 0 ∨ env.glfwCreateWindow = none ∨ env.glewInit ≠ lib.GLEW_OK) :
    ∃ r, main lib env fuel = some r ∧ r.code = -1 ∧ r.world = World.start ∧
      r.trace =
        (if env.glfwInit = 0 then [Obs.cout "glfw failed\n"]
         else if env.glfwCreateWindow = none then
           [Obs.glfwTerminate, Obs.cout "window failed\n"]
         else [Obs.cout "\nglew failed\n"]) ∧
      r.trace.any Obs.isFrameStep = false := by
  unfold main
  by_cases h1 : env.glfwInit = 0
  · simp [h1, Obs.isFrameStep]
  · cases h2 : env.glfwCreateWindow with
    | none => simp [h1, Obs.isFrameStep]
    | some win =>
      have h3 : env.glewInit ≠ lib.GLEW_OK := by
        rcases h with h | h | h
        · exact absurd h h1
        · rw [h2] at h; cases h
        · exact h
      simp [h1, h3, Obs.isFrameStep]

/-- Witness for C8: window creation fails. -/
theorem C8_witness :
    (({ Env.demo with glfwCreateWindow := none } : Env).glfwInit = 0 ∨
        ({ Env.demo with glfwCreateWindow := none } : Env).glfwCreateWindow = none ∨
        ({ Env.demo with glfwCreateWindow := none } : Env).glewInit ≠ Lib.headers.GLEW_OK) ∧
      ∃ r, main Lib.headers { Env.demo with glfwCreateWindow := none } 0 = some r ∧
        r.code = -1 ∧ r.world = World.start ∧
        r.trace = [Obs.glfwTerminate, Obs.cout "window failed\n"] :=
  ⟨Or.inr (Or.inl rfl),
    (C8_failed_setup_returns_minus_one Lib.headers { Env.demo with glfwCreateWindow := none } 0
      (Or.inr (Or.inl rfl))).imp
      (fun _ hr => ⟨hr.1, hr.2.1, hr.2.2.1, hr.2.2.2.1.trans (by decide)⟩)⟩

/-- C9: after a successful setup, if the display surface answers "do not close" to the
checks 0, ..., N-1 and "close" to check N, then `main`, given more than `N` units of
fuel, returns exit code 0 after exactly the iterations 0, ..., N-1: its trace is that of
these `N` iterations followed by `glfwDestroyWindow` and `glfwTerminate`, with `N`
clears, projections, actor updates, draws, buffer swaps and polls.  For `N = 0` the
trace is the two closing calls alone. -/
theorem C9_close_request_ends_loop (lib : Lib) (env : Env) (N fuel : Nat)
    (hinit : env.glfwInit ≠ 0) (hwin : env.glfwCreateWindow ≠ none)
    (hglew : env.glewInit = lib.GLEW_OK)
    (hrun : ∀ i, i < N → env.glfwWindowShouldClose i = 0)
    (hclose : env.glfwWindowShouldClose N ≠ 0) (hfuel : N < fuel) :
    ∃ r, main lib env fuel = some r ∧ r.code = 0 ∧
      r.world = (runFrames lib env N 0 (World.withActor mainActor, [])).1 ∧
      r.trace = (runFrames lib env N 0 (World.withActor mainActor, [])).2 ++
        [Obs.glfwDestroyWindow, Obs.glfwTerminate] ∧
      r.trace.count Obs.clear = N ∧ r.trace.count Obs.projection = N ∧
      r.trace.count Obs.actorUpdate = N ∧ r.trace.countP Obs.isDraw = N ∧
      r.trace.count Obs.glfwSwapBuffers = N ∧ r.trace.count Obs.glfwPollEvents = N := by
  have hloop := frameLoop_eq_runFrames lib env N fuel 0 (World.withActor mainActor, [])
    (by intro j hj; simpa using hrun j hj) (by simpa using hclose) hfuel
  obtain ⟨c1, c2, c3, c4, c5⟩ := runFrames_count lib env N 0 (World.withActor mainActor, [])
  obtain ⟨c6, -⟩ := runFrames_draw lib env N 0 (World.withActor mainActor, []) (by decide)
  cases hw : env.glfwCreateWindow with
  | none => exact absurd hw hwin
  | some win =>
    refine ⟨⟨0, (runFrames lib env N 0 (World.withActor mainActor, [])).1,
      (runFrames lib env N 0 (World.withActor mainActor, [])).2 ++
        [Obs.glfwDestroyWindow, Obs.glfwTerminate]⟩, ?_, rfl, rfl, rfl, ?_⟩
    · unfold main
      simp only [hinit, if_false, hw, hglew, ne_eq, not_true_eq_false]
      have : (({ World.start with
          heap := Function.update World.start.heap triangleActor (some mainActor) } :
            World Actor).registerListener EVENT_TYPE.KEY_PRESS triangleActor) =
          World.withActor mainActor := rfl
      rw [this, hloop]
    · simp only [List.count_append, List.countP_append]
      simp at c1 c2 c3 c4 c5 c6
      simp [c1, c2, c3, c4, c5, c6, Obs.isDraw]

/-- Witness for C9: the run `Env.demo`, closed at check 5, and the same run with close
requested at the first check. -/
theorem C9_witness :
    Env.demo.glfwInit ≠ 0 ∧ Env.demo.glfwCreateWindow ≠ none ∧
      Env.demo.glewInit = Lib.headers.GLEW_OK ∧
      (∀ i, i < 5 → Env.demo.glfwWindowShouldClose i = 0) ∧
      Env.demo.glfwWindowShouldClose 5 ≠ 0 ∧ 5 < 6 ∧
      (∃ r, main Lib.headers Env.demo 6 = some r ∧ r.code = 0 ∧
        r.trace.count Obs.glfwSwapBuffers = 5) ∧
      ∃ r, main Lib.headers { Env.demo with glfwWindowShouldClose := fun _ => 1 } 1 = some r ∧
        r.code = 0 ∧ r.trace = [Obs.glfwDestroyWindow, Obs.glfwTerminate] :=
  ⟨by decide, by decide, by decide, by decide, by decide, by decide,
    (C9_close_request_ends_loop Lib.headers Env.demo 5 6 (by decide) (by decide) (by decide)
      (by decide) (by decide) (by decide)).imp
      (fun _ hr => ⟨hr.1, hr.2.1, hr.2.2.2.2.2.2.2.2.1⟩),
    (C9_close_request_ends_loop Lib.headers
      { Env.demo with glfwWindowShouldClose := fun _ => 1 } 0 1 (by decide) (by decide)
      (by decide) (by decide) (by decide) (by decide)).imp
      (fun _ hr => ⟨hr.1, hr.2.1, hr.2.2.2.1.trans rfl⟩)⟩

/-- C10: `publishEvent` runs over the copy of the list taken when it starts.  When the
reaction of listener `p` registers `q` for the same kind (other reactions leave the
registry alone, and no reaction changes which listeners are alive), the publish still
calls exactly the live listeners of the list as it was at the start, in their order;
afterwards the collection is the old one followed by one `q` per call of `p`, and the
next publish runs over that longer list. -/
theorem C10_publish_iterates_over_copy {Obj : Type} (onUpdate : Dispatch Obj)
    (hl : KeepsLiveness onUpdate) (k : EVENT_TYPE) (m : String) (p q : WeakPtr)
    (hp : ∀ w, (onUpdate p k m w).eventManager = w.eventManager.registerListener k q)
    (ho : ∀ p2, p2 ≠ p → ∀ w, (onUpdate p2 k m w).eventManager = w.eventManager)
    (w : World Obj) :
    (publishEvent onUpdate k m w).2 = callsOn k m (w.live (w.registered k)) ∧
      (publishEvent onUpdate k m w).1.registered k =
        w.registered k ++ List.replicate ((w.live (w.registered k)).count p) q ∧
      (publishEvent onUpdate k m (publishEvent onUpdate k m w).1).2 =
        callsOn k m
          (w.live (w.registered k ++ List.replicate ((w.live (w.registered k)).count p) q)) := by
  have h1 : (publishEvent onUpdate k m w).2 = callsOn k m (w.live (w.registered k)) := by
    rw [publishEvent_eq_loop, publishLoop_calls onUpdate hl]
  have h2 : (publishEvent onUpdate k m w).1.registered k =
      w.registered k ++ List.replicate ((w.live (w.registered k)).count p) q := by
    rw [publishEvent_eq_loop]
    exact publishLoop_registering onUpdate hl k m p q hp ho _ w
  refine ⟨h1, h2, ?_⟩
  rw [publishEvent_eq_loop (w := (publishEvent onUpdate k m w).1),
    publishLoop_calls onUpdate hl, h2]
  congr 1
  unfold World.live
  congr 1; funext y
  rw [publishEvent_eq_loop, publishLoop_expired onUpdate hl]

/-- Witness for C10: listener 0 registers listener 1 while the list is 0, 2. -/
theorem C10_witness :
    KeepsLiveness (registeringDispatch 0 1) ∧
      (∀ w, (registeringDispatch 0 1 0 EVENT_TYPE.KEY_PRESS "UP" w).eventManager =
        w.eventManager.registerListener EVENT_TYPE.KEY_PRESS 1) ∧
      (∀ p2, p2 ≠ 0 → ∀ w,
        (registeringDispatch 0 1 p2 EVENT_TYPE.KEY_PRESS "UP" w).eventManager = w.eventManager) ∧
      (publishEvent (registeringDispatch 0 1) EVENT_TYPE.KEY_PRESS "UP" World.withRegistrar).2 =
        [⟨0, EVENT_TYPE.KEY_PRESS, "UP"⟩, ⟨2, EVENT_TYPE.KEY_PRESS, "UP"⟩] ∧
      (publishEvent (registeringDispatch 0 1) EVENT_TYPE.KEY_PRESS "UP"
        World.withRegistrar).1.registered EVENT_TYPE.KEY_PRESS = [0, 2, 1] ∧
      (publishEvent (registeringDispatch 0 1) EVENT_TYPE.KEY_PRESS "UP"
        (publishEvent (registeringDispatch 0 1) EVENT_TYPE.KEY_PRESS "UP"
          World.withRegistrar).1).2 =
        [⟨0, EVENT_TYPE.KEY_PRESS, "UP"⟩, ⟨2, EVENT_TYPE.KEY_PRESS, "UP"⟩,
          ⟨1, EVENT_TYPE.KEY_PRESS, "UP"⟩] :=
  have hp : ∀ w : World Actor, (registeringDispatch 0 1 0 EVENT_TYPE.KEY_PRESS "UP" w).eventManager =
      w.eventManager.registerListener EVENT_TYPE.KEY_PRESS 1 := fun _ => rfl
  have ho : ∀ p2, p2 ≠ 0 → ∀ w : World Actor,
      (registeringDispatch 0 1 p2 EVENT_TYPE.KEY_PRESS "UP" w).eventManager = w.eventManager := by
    intro p2 h w
    unfold registeringDispatch
    rw [if_neg h]
    exact keepsRegistry_actor p2 _ _ w
  ⟨keepsLiveness_registering 0 1, hp, ho,
    (C10_publish_iterates_over_copy (registeringDispatch 0 1) (keepsLiveness_registering 0 1)
      EVENT_TYPE.KEY_PRESS "UP" 0 1 hp ho World.withRegistrar).1.trans (by decide),
    (C10_publish_iterates_over_copy (registeringDispatch 0 1) (keepsLiveness_registering 0 1)
      EVENT_TYPE.KEY_PRESS "UP" 0 1 hp ho World.withRegistrar).2.1.trans (by decide),
    (C10_publish_iterates_over_copy (registeringDispatch 0 1) (keepsLiveness_registering 0 1)
      EVENT_TYPE.KEY_PRESS "UP" 0 1 hp ho World.withRegistrar).2.2.trans (by decide)⟩

end ItsAGame
